import Mathlib

/-!
A shallow embedding of the SLA Watchdog service of the civic-sentinel
repository (`sla-watchdog.service`, the file containing `SLAWatchdogService`).

Modelling conventions:
* Wall-clock instants are `Int` milliseconds since the epoch (the value of
  `Date.getTime()`); Firestore `Timestamp`s are identified with the instant
  they denote.
* Complaint `status` values are the raw strings used by the code.
* `escalationLevel` is an `Int` (the TypeScript `Complaint` type declares a
  required `number`, so the defensive `?? 0` at the audit-entry construction
  site is the identity and is dropped).
* The Firestore collection is a `List Complaint`; `get complaint by id` is
  `List.find?` on the `id` field, and every write the watchdog performs is a
  single-document field update, modelled as a map over the list that rewrites
  the matching document.
* The bulk query `where status in ACTIVE_STATUSES / orderBy updatedAt desc /
  limit 250` is modelled as filter, stable sort by `updatedAt` descending,
  and `take 250`.
* Fallible external calls (the bulk query, the per-item re-fetch,
  `updateComplaintFields`, `appendTimelineEvent`, the audit `update`, and the
  Gemini advisory call) are driven by an explicit environment `Env` that says
  which calls throw; a thrown call has no effect on the store (each is a
  single atomic document operation).
* `process.env.DEMO_SLA_SECONDS` is modelled as `Env.demoSlaSeconds :
  Option Int`: `none` when the variable is unset, `some s` when it is set and
  `Number(...)` parses it to the integer `s`.
* The advisory phase stamps its timeline events with `new Date()` at append
  time; those clock reads are modelled by the single value `Env.advNow`.
-/

namespace CivicSentinel

/-- A `timeline` entry as written by the watchdog:
`{ type, action, message, timestamp }`. -/
structure TimelineEvent where
  type : String
  action : String
  message : String
  timestamp : Int
deriving DecidableEq, Repr

/-- An `auditLog` entry as written by the watchdog; the nested `details`
object is flattened into the record. -/
structure AuditEntry where
  timestamp : Int
  action : String
  actor : String
  oldStatus : String
  newStatus : String
  prevLevel : Int
  newLevel : Int
  previousDeadline : Int
  newDeadline : Int
deriving DecidableEq, Repr

/-- The subset of the `Complaint` document the watchdog reads or writes.
`slaDeadline` and `expectedResolutionTime` are optional timestamps (the bulk
filter tolerates either being absent); `department` is optional with
`assignedDepartment` as its fallback. -/
structure Complaint where
  id : String
  status : String
  escalationLevel : Int
  createdAt : Int
  slaDeadline : Option Int
  expectedResolutionTime : Option Int
  updatedAt : Int
  department : Option String
  assignedDepartment : String
  severity : String
  timeline : List TimelineEvent
  auditLog : List AuditEntry
deriving DecidableEq, Repr

/-- An element of the `escalatedForAI` list handed to the advisory
enricher. -/
structure EscRecord where
  id : String
  department : String
  severity : String
  status : String
  elapsedSeconds : Int
deriving DecidableEq, Repr

/-- The argument record of `geminiService.explainEscalation`. -/
structure ExplainInput where
  department : String
  severity : String
  elapsedSeconds : Int
  status : String
deriving DecidableEq, Repr

/-- The value returned by `tick()`. -/
structure TickResult where
  scanned : Nat
  escalated : Nat
  updatedIds : List String
deriving DecidableEq, Repr

/-- External-world parameters of one cycle: configuration, the advisory
function, and which store calls throw.  `gemini i = .error ()` is a thrown
advisory call; `gemini i = .ok none` is an empty (falsy) justification;
`gemini i = .ok (some t)` is a non-empty justification text `t`. -/
structure Env where
  demoSlaSeconds : Option Int
  gemini : ExplainInput → Except Unit (Option String)
  queryFails : Bool
  refetchFails : String → Bool
  updateFails : String → Bool
  timelineFails : String → Bool
  auditFails : String → Bool
  aiAppendFails : String → Bool
  aiCatchAppendFails : String → Bool
  advNow : Int

/-- The list `ACTIVE_STATUSES`: the statuses the bulk query selects.  Note that it
contains every status except `resolved` — in particular `escalated`. -/
def ACTIVE_STATUSES : List String :=
  ["submitted", "analyzed", "assigned", "acknowledged", "in_progress",
   "on_hold", "sla_warning", "escalated"]

/-- The constant `WATCHDOG_INTERVAL_MS`: 1s when `DEMO_SLA_SECONDS` parses to a value in
(0, 30], else 60s.  At this read site the unset variable defaults to `'0'`. -/
def watchdogIntervalMs (env : Env) : Int :=
  let d := env.demoSlaSeconds.getD 0
  if d > 0 ∧ d ≤ 30 then 1000 else 60000

/-- Function `getDeadline`: `complaint.slaDeadline ?? complaint.expectedResolutionTime`. -/
def getDeadline (c : Complaint) : Option Int :=
  match c.slaDeadline with
  | some d => some d
  | none => c.expectedResolutionTime

/-- The in-memory bulk filter (`overdue = complaints.filter ...`):
a document is overdue when it has an effective deadline (`slaDeadline`,
falling back to `expectedResolutionTime`; a present `Date` is always truthy,
so `||` and `??` agree) and `now` is strictly past it. -/
def isOverdue (now : Int) (c : Complaint) : Bool :=
  match getDeadline c with
  | none => false
  | some d => now > d

/-- The ordering of the bulk query: `updatedAt` descending (ties are left to
the store; any fixed tie order is a faithful model). -/
def byUpdatedDesc (a b : Complaint) : Prop :=
  b.updatedAt ≤ a.updatedAt

instance : DecidableRel byUpdatedDesc := fun a b =>
  inferInstanceAs (Decidable (b.updatedAt ≤ a.updatedAt))

/-- The bulk query: status in `ACTIVE_STATUSES`, ordered by `updatedAt`
descending, limited to 250 documents. -/
def queryActive (store : List Complaint) : List Complaint :=
  ((store.filter fun c => c.status ∈ ACTIVE_STATUSES).insertionSort
    byUpdatedDesc).take 250

/-- Function `getComplaint`: fetch a document by id. -/
def getComplaint (store : List Complaint) (id : String) : Option Complaint :=
  store.find? fun c => c.id = id

/-- A single-document write: rewrite the document(s) whose `id` matches. -/
def updateById (id : String) (f : Complaint → Complaint)
    (store : List Complaint) : List Complaint :=
  store.map fun c => if c.id = id then f c else c

/-- Function `appendTimelineEvent`: append one event to a document's timeline. -/
def appendTimeline (id : String) (ev : TimelineEvent)
    (store : List Complaint) : List Complaint :=
  updateById id (fun c => { c with timeline := c.timeline ++ [ev] }) store

/-- The audit `update` with `FieldValue.arrayUnion`: append one entry to a
document's `auditLog`. -/
def appendAudit (id : String) (entry : AuditEntry)
    (store : List Complaint) : List Complaint :=
  updateById id (fun c => { c with auditLog := c.auditLog ++ [entry] }) store

/-- The strict one-way transition table of `tick()`:
`submitted`/`analyzed`/`in_progress` → (`sla_warning`, 1),
`sla_warning` → (`escalated`, 2), anything else → no transition. -/
def transition (s : String) : Option (String × Int × String) :=
  if s = "analyzed" ∨ s = "in_progress" ∨ s = "submitted" then
    some ("sla_warning", 1, "SLA breached – warning issued")
  else if s = "sla_warning" then
    some ("escalated", 2, "SLA escalated to level 2")
  else none

/-- JavaScript `Math.round (x / 1000)` for an integer number of
milliseconds `x`: round half up, i.e. floor of `x/1000 + 1/2`. -/
def roundDiv1000 (x : Int) : Int :=
  (x + 500).fdiv 1000

/-- The value `demoSeconds` as read inside the loop body: here the unset variable
defaults to `'10'` (not `'0'` as at the interval-selection read site). -/
def demoSeconds (env : Env) : Int :=
  env.demoSlaSeconds.getD 10

/-- The extension `extensionMs`: `demoSeconds * 1000` when `demoSeconds > 0`, else 24h. -/
def extensionMs (env : Env) : Int :=
  if demoSeconds env > 0 then demoSeconds env * 1000
  else 24 * 60 * 60 * 1000

/-- The field-level update committed on a transition: `escalationLevel`,
`status`, `updatedAt`, `slaDeadline`, `expectedResolutionTime`. -/
def fieldPatch (newStatus : String) (newLevel : Int) (now newDeadline : Int)
    (c : Complaint) : Complaint :=
  { c with escalationLevel := newLevel, status := newStatus, updatedAt := now,
           slaDeadline := some newDeadline,
           expectedResolutionTime := some newDeadline }

/-- Mutable loop state of one cycle: the store plus the accumulators
`updatedIds` and `escalatedForAI`. -/
structure LoopState where
  store : List Complaint
  updatedIds : List String
  escalatedForAI : List EscRecord
deriving DecidableEq, Repr

/-- The write sequence executed once a transition has been computed for the
re-fetched `complaint`: field update, then timeline append, then audit
append, then the two accumulator pushes.  A thrown write stops the item (and
with it the whole loop — there is no per-item catch), leaving the writes
already committed in place. -/
def commitTransition (env : Env) (now : Int) (complaint : Complaint)
    (slaMs : Int) (newStatus : String) (newLevel : Int) (message : String)
    (st : LoopState) : LoopState × Option String :=
  let elapsedSeconds := max 1 (roundDiv1000 (now - complaint.createdAt))
  let newDeadline := now + extensionMs env
  if env.updateFails complaint.id then (st, some "update failed")
  else
    let store1 := updateById complaint.id
      (fieldPatch newStatus newLevel now newDeadline) st.store
    if env.timelineFails complaint.id then
      ({ st with store := store1 }, some "timeline append failed")
    else
      let store2 := appendTimeline complaint.id
        { type := "system",
          action := if newStatus = "sla_warning" then "sla_warning"
                    else "escalated",
          message := message, timestamp := now } store1
      if env.auditFails complaint.id then
        ({ st with store := store2 }, some "audit append failed")
      else
        let store3 := appendAudit complaint.id
          { timestamp := now,
            action := if newStatus = "sla_warning" then "SLA warning issued"
                      else "Escalated to level " ++ toString newLevel,
            actor := "system", oldStatus := complaint.status,
            newStatus := newStatus, prevLevel := complaint.escalationLevel,
            newLevel := newLevel, previousDeadline := slaMs,
            newDeadline := newDeadline } store2
        ({ store := store3,
           updatedIds := st.updatedIds ++ [complaint.id],
           escalatedForAI := st.escalatedForAI ++
             [{ id := complaint.id,
                department := complaint.department.getD
                  complaint.assignedDepartment,
                severity := complaint.severity, status := newStatus,
                elapsedSeconds := elapsedSeconds }] }, none)

/-- One iteration of the `for (const raw of overdue)` loop, given the id of
the bulk-query document: re-fetch, skip `resolved`/`escalated`, re-check the
deadline strictly, look up the transition, and commit.  A missing effective
deadline on the re-fetched record makes `deadline.getTime()` throw. -/
def processOverdue (env : Env) (now : Int) (rawId : String)
    (st : LoopState) : LoopState × Option String :=
  if env.refetchFails rawId then (st, some "refetch failed")
  else
    match getComplaint st.store rawId with
    | none => (st, none)
    | some complaint =>
      if complaint.status = "resolved" ∨ complaint.status = "escalated" then
        (st, none)
      else
        match getDeadline complaint with
        | none => (st, some "deadline missing")
        | some slaMs =>
          if now ≤ slaMs then (st, none)
          else
            match transition complaint.status with
            | none => (st, none)
            | some (newStatus, newLevel, message) =>
              commitTransition env now complaint slaMs newStatus newLevel
                message st

/-- The per-item loop of one cycle.  The first thrown call ends the loop;
there is no per-item error isolation. -/
def runLoop (env : Env) (now : Int) :
    List String → LoopState → LoopState × Option String
  | [], st => (st, none)
  | rawId :: rest, st =>
    match processOverdue env now rawId st with
    | (st', none) => runLoop env now rest st'
    | (st', some e) => (st', some e)

/-- One item of `addEscalationExplanations`: try the advisory call and the
success-path timeline append; any throw inside the try enters the catch,
which appends the deterministic fallback entry; a throw inside the catch
aborts the remaining items (the `Bool` component). -/
def addEscItem (env : Env) (esc : EscRecord)
    (store : List Complaint) : List Complaint × Bool :=
  let catchAppend : List Complaint × Bool :=
    if env.aiCatchAppendFails esc.id then (store, true)
    else (appendTimeline esc.id
      { type := "system", action := "ai_escalation_justification_failed",
        message :=
          "System escalation enforced due to SLA breach. AI justification unavailable.",
        timestamp := env.advNow } store, false)
  match env.gemini { department := esc.department, severity := esc.severity,
                     elapsedSeconds := esc.elapsedSeconds,
                     status := esc.status } with
  | Except.error _ => catchAppend
  | Except.ok justification =>
    let message := match justification with
      | some t => "AI justification: " ++ t
      | none => "System escalation enforced due to SLA breach."
    if env.aiAppendFails esc.id then catchAppend
    else (appendTimeline esc.id
      { type := "system", action := "ai_escalation_justification",
        message := message, timestamp := env.advNow } store, false)

/-- Function `addEscalationExplanations`: sequential per-item advisory enrichment;
an abort from the catch-block append abandons the remaining items.  The
caller fires this detached and swallows its error. -/
def addEscalationExplanations (env : Env) :
    List EscRecord → List Complaint → List Complaint
  | [], store => store
  | esc :: rest, store =>
    match addEscItem env esc store with
    | (store', true) => store'
    | (store', false) => addEscalationExplanations env rest store'

/-- The full outcome of one `tick()` call: its returned (or thrown) value,
the store afterwards, and the re-entrancy flag afterwards. -/
structure TickOut where
  result : Except String TickResult
  store : List Complaint
  running : Bool

/-- The `escalatedForAI` list a cycle over `store` at `now` builds (the list
handed to the advisory enricher when the loop completes). -/
def tickEscalations (env : Env) (now : Int) (store : List Complaint) :
    List EscRecord :=
  (runLoop env now
    (((queryActive store).filter (isOverdue now)).map fun c => c.id)
    { store := store, updatedIds := [], escalatedForAI := [] }).1.escalatedForAI

/-- One `tick()` cycle.  Re-entrancy guard first; then the bulk query, the
in-memory overdue filter, the per-item loop, and the detached advisory
enrichment (whose store effects land after the cycle and whose error is
swallowed).  The `finally` clears the `running` flag on the normal and the
thrown exit of the cycle body alike; the guard return precedes the
`try`/`finally` and leaves the flag to its owner. -/
def tick (env : Env) (now : Int) (running : Bool)
    (store : List Complaint) : TickOut :=
  if running then
    { result := Except.ok { scanned := 0, escalated := 0, updatedIds := [] },
      store := store, running := running }
  else if env.queryFails then
    { result := Except.error "query failed", store := store, running := false }
  else
    let page := queryActive store
    let overdue := page.filter (isOverdue now)
    match runLoop env now (overdue.map fun c => c.id)
      { store := store, updatedIds := [], escalatedForAI := [] } with
    | (st, some e) =>
      { result := Except.error e, store := st.store, running := false }
    | (st, none) =>
      let store2 :=
        if st.escalatedForAI.isEmpty then st.store
        else addEscalationExplanations env st.escalatedForAI st.store
      { result := Except.ok { scanned := page.length,
                              escalated := st.updatedIds.length,
                              updatedIds := st.updatedIds },
        store := store2, running := false }

/-- A sequence of non-re-entrant `tick()` cycles, each with its own
environment and clock reading. -/
def ticks : List (Env × Int) → List Complaint → List Complaint
  | [], store => store
  | (env, now) :: rest, store => ticks rest (tick env now false store).store

/-! ### Concrete fixtures used to instantiate the theorems below -/

/-- A healthy environment: accelerated window of 10s, advisory call
succeeds, no store call throws. -/
def envBase : Env :=
  { demoSlaSeconds := some 10,
    gemini := fun _ => Except.ok (some "crew reassigned to clear the backlog"),
    queryFails := false, refetchFails := fun _ => false,
    updateFails := fun _ => false, timelineFails := fun _ => false,
    auditFails := fun _ => false, aiAppendFails := fun _ => false,
    aiCatchAppendFails := fun _ => false, advNow := 1000100 }

/-- Environment `envBase` with `DEMO_SLA_SECONDS` unset. -/
def envNoDemo : Env := { envBase with demoSlaSeconds := none }

/-- Environment `envBase` whose `updateComplaintFields` throws for document `A`. -/
def envFailA : Env := { envBase with updateFails := fun id => id == "A" }

/-- Environment `envBase` whose advisory call returns an empty (falsy) justification. -/
def envEmptyRes : Env := { envBase with gemini := fun _ => Except.ok none }

/-- Environment `envBase` whose advisory call throws. -/
def envErr : Env := { envBase with gemini := fun _ => Except.error () }

/-- An overdue `submitted` complaint (deadline 900000, level 0). -/
def cw1 : Complaint :=
  { id := "w1", status := "submitted", escalationLevel := 0,
    createdAt := 0, slaDeadline := some 900000,
    expectedResolutionTime := some 900000, updatedAt := 100,
    department := some "sanitation", assignedDepartment := "sanitation",
    severity := "high", timeline := [], auditLog := [] }

/-- The document `cw1` becomes after `tick envBase 1000000` (also after
`tick envNoDemo 1000000`, since the unset variable defaults to `'10'`). -/
def cw1' : Complaint :=
  { id := "w1", status := "sla_warning", escalationLevel := 1,
    createdAt := 0, slaDeadline := some 1010000,
    expectedResolutionTime := some 1010000, updatedAt := 1000000,
    department := some "sanitation", assignedDepartment := "sanitation",
    severity := "high",
    timeline :=
      [{ type := "system", action := "sla_warning",
         message := "SLA breached – warning issued", timestamp := 1000000 },
       { type := "system", action := "ai_escalation_justification",
         message := "AI justification: crew reassigned to clear the backlog",
         timestamp := 1000100 }],
    auditLog :=
      [{ timestamp := 1000000, action := "SLA warning issued",
         actor := "system", oldStatus := "submitted",
         newStatus := "sla_warning", prevLevel := 0, newLevel := 1,
         previousDeadline := 900000, newDeadline := 1010000 }] }

/-- The `escalatedForAI` record that run produces for `cw1`. -/
def escw1 : EscRecord :=
  { id := "w1", department := "sanitation", severity := "high",
    status := "sla_warning", elapsedSeconds := 1000 }

/-- Two overdue `submitted` complaints; `A` is fresher so the query returns
it first. -/
def cA : Complaint :=
  { id := "A", status := "submitted", escalationLevel := 0,
    createdAt := 0, slaDeadline := some 900000,
    expectedResolutionTime := some 900000, updatedAt := 200,
    department := none, assignedDepartment := "roads",
    severity := "medium", timeline := [], auditLog := [] }

def cB : Complaint :=
  { id := "B", status := "submitted", escalationLevel := 0,
    createdAt := 0, slaDeadline := some 900000,
    expectedResolutionTime := some 900000, updatedAt := 100,
    department := none, assignedDepartment := "roads",
    severity := "medium", timeline := [], auditLog := [] }

/-- An overdue, already-`escalated` complaint. -/
def cEsc1 : Complaint :=
  { id := "e1", status := "escalated", escalationLevel := 2,
    createdAt := 0, slaDeadline := some 100,
    expectedResolutionTime := some 100, updatedAt := 50,
    department := some "water", assignedDepartment := "water",
    severity := "high", timeline := [], auditLog := [] }

/-- An overdue `resolved` complaint. -/
def cRes : Complaint :=
  { id := "r1", status := "resolved", escalationLevel := 0,
    createdAt := 0, slaDeadline := some 100,
    expectedResolutionTime := some 100, updatedAt := 60,
    department := none, assignedDepartment := "parks",
    severity := "low", timeline := [], auditLog := [] }

/-- An advisory-enricher input record for `cEsc1`. -/
def escW : EscRecord :=
  { id := "e1", department := "water", severity := "high",
    status := "escalated", elapsedSeconds := 42 }

instance : IsTotal Complaint byUpdatedDesc :=
  ⟨fun a b => le_total b.updatedAt a.updatedAt⟩

instance : IsTrans Complaint byUpdatedDesc :=
  ⟨fun _ _ _ h1 h2 => le_trans h2 h1⟩

/-! ### The per-cycle step relation

Everything one `tick()` cycle can do to a single document is captured by
`Step`: either the watchdog-relevant fields are untouched (`coreSame`; the
advisory enricher and the timeline/audit appends only grow the append-only
lists), or exactly one transition of the table fired (`WatchdogEdge`). -/

/-- The watchdog-relevant scalar fields are unchanged. -/
def coreSame (c c' : Complaint) : Prop :=
  c'.status = c.status ∧ c'.escalationLevel = c.escalationLevel ∧
  c'.slaDeadline = c.slaDeadline ∧
  c'.expectedResolutionTime = c.expectedResolutionTime ∧
  c'.updatedAt = c.updatedAt

/-- One committed transition of the table: the old status admits a
transition, the old effective deadline was strictly in the past, and the new
document carries the new status, the new level, and the extended deadline in
both deadline fields. -/
def WatchdogEdge (env : Env) (now : Int) (c c' : Complaint) : Prop :=
  ∃ ns lv msg d, transition c.status = some (ns, lv, msg) ∧
    getDeadline c = some d ∧ d < now ∧
    c'.status = ns ∧ c'.escalationLevel = lv ∧
    c'.slaDeadline = some (now + extensionMs env) ∧
    c'.expectedResolutionTime = some (now + extensionMs env) ∧
    c'.updatedAt = now

/-- What one cycle may do to one document. -/
def Step (env : Env) (now : Int) (c c' : Complaint) : Prop :=
  coreSame c c' ∨ WatchdogEdge env now c c'

/-- Relation `Step` lifted to the result of a `find?` by id. -/
def StepOpt (env : Env) (now : Int) :
    Option Complaint → Option Complaint → Prop
  | none, none => True
  | some c, some c' => Step env now c c'
  | none, some _ => False
  | some _, none => False

/-- Relation `Step` lifted to whole stores, document by document. -/
def StoreStep (env : Env) (now : Int) (s s' : List Complaint) : Prop :=
  ∀ id, StepOpt env now (getComplaint s id) (getComplaint s' id)

/-! ### Escalation-level monotonicity machinery -/

/-- The status/level correlation the system maintains (intake creates
complaints at level 0; the watchdog is the only writer of
`escalationLevel`): a document whose status still admits a transition has a
level no larger than the level that transition would write. -/
def levelInvB (c : Complaint) : Bool :=
  match transition c.status with
  | some (_, lv, _) => c.escalationLevel ≤ lv
  | none => true

/-! ### Generic store lemmas -/

theorem getComplaint_some_id {s : List Complaint} {id : String} {c : Complaint}
    (h : getComplaint s id = some c) : c.id = id := by
  unfold getComplaint at h
  simpa using List.find?_some h

theorem getComplaint_map {g : Complaint → Complaint}
    (hg : ∀ c, (g c).id = c.id) (s : List Complaint) (id : String) :
    getComplaint (s.map g) id = (getComplaint s id).map g := by
  unfold getComplaint
  rw [List.find?_map]
  have hp : ((fun c : Complaint => decide (c.id = id)) ∘ g) =
      (fun c : Complaint => decide (c.id = id)) := by
    funext c
    simp [Function.comp, hg]
  rw [hp]

theorem getComplaint_updateById {tid : String} {f : Complaint → Complaint}
    (hf : ∀ c, (f c).id = c.id) (s : List Complaint) (id : String) :
    getComplaint (updateById tid f s) id =
      (getComplaint s id).map (fun c => if c.id = tid then f c else c) := by
  unfold updateById
  exact getComplaint_map (fun c => by by_cases h : c.id = tid <;> simp [h, hf]) s id

theorem getComplaint_updateById_ne {tid : String} {f : Complaint → Complaint}
    (hf : ∀ c, (f c).id = c.id) {s : List Complaint} {id : String}
    (hne : id ≠ tid) :
    getComplaint (updateById tid f s) id = getComplaint s id := by
  rw [getComplaint_updateById hf]
  cases h : getComplaint s id with
  | none => rfl
  | some c =>
    have hc := getComplaint_some_id h
    simp [hc, hne]

theorem getComplaint_updateById_eq {tid : String} {f : Complaint → Complaint}
    (hf : ∀ c, (f c).id = c.id) {s : List Complaint} {c : Complaint}
    (h : getComplaint s tid = some c) :
    getComplaint (updateById tid f s) tid = some (f c) := by
  rw [getComplaint_updateById hf, h]
  have hc := getComplaint_some_id h
  simp [hc]

theorem coreSame_refl (c : Complaint) : coreSame c c :=
  ⟨rfl, rfl, rfl, rfl, rfl⟩

theorem Step_refl (env : Env) (now : Int) (c : Complaint) : Step env now c c :=
  Or.inl (coreSame_refl c)

theorem StepOpt_refl (env : Env) (now : Int) (o : Option Complaint) :
    StepOpt env now o o := by
  cases o with
  | none => trivial
  | some c => exact Step_refl env now c

theorem StoreStep_refl (env : Env) (now : Int) (s : List Complaint) :
    StoreStep env now s s := fun id => StepOpt_refl env now _

theorem extensionMs_pos (env : Env) : 0 < extensionMs env := by
  unfold extensionMs
  split
  · rename_i h
    omega
  · omega

theorem coreSame_getDeadline {c c' : Complaint} (h : coreSame c c') :
    getDeadline c' = getDeadline c := by
  unfold getDeadline
  rw [h.2.2.1, h.2.2.2.1]

theorem coreSame_trans {c c₁ c' : Complaint}
    (h₁ : coreSame c c₁) (h₂ : coreSame c₁ c') : coreSame c c' := by
  obtain ⟨a1, a2, a3, a4, a5⟩ := h₁
  obtain ⟨b1, b2, b3, b4, b5⟩ := h₂
  exact ⟨b1.trans a1, b2.trans a2, b3.trans a3, b4.trans a4, b5.trans a5⟩

theorem Step_trans {env : Env} {now : Int} {c c₁ c' : Complaint}
    (h₁ : Step env now c c₁) (h₂ : Step env now c₁ c') : Step env now c c' := by
  rcases h₁ with hs₁ | he₁
  · rcases h₂ with hs₂ | he₂
    · exact Or.inl (coreSame_trans hs₁ hs₂)
    · obtain ⟨ns, lv, msg, d, e1, e2, e3, e4, e5, e6, e7, e8⟩ := he₂
      refine Or.inr ⟨ns, lv, msg, d, ?_, ?_, e3, e4, e5, e6, e7, e8⟩
      · rw [← hs₁.1]; exact e1
      · rw [← coreSame_getDeadline hs₁]; exact e2
  · rcases h₂ with hs₂ | he₂
    · obtain ⟨ns, lv, msg, d, e1, e2, e3, e4, e5, e6, e7, e8⟩ := he₁
      obtain ⟨b1, b2, b3, b4, b5⟩ := hs₂
      exact Or.inr ⟨ns, lv, msg, d, e1, e2, e3, b1.trans e4, b2.trans e5,
        b3.trans e6, b4.trans e7, b5.trans e8⟩
    · -- a second firing on an already-fired document would need
      -- `now + extension < now`, impossible since the extension is positive
      obtain ⟨ns, lv, msg, d, e1, e2, e3, e4, e5, e6, e7, e8⟩ := he₁
      obtain ⟨ns', lv', msg', d', f1, f2, f3, f4, f5, f6, f7, f8⟩ := he₂
      have hdl : getDeadline c₁ = some (now + extensionMs env) := by
        unfold getDeadline
        rw [e6]
      rw [hdl] at f2
      injection f2 with f2
      subst f2
      have := extensionMs_pos env
      omega

theorem StepOpt_trans {env : Env} {now : Int} {o o₁ o' : Option Complaint}
    (h₁ : StepOpt env now o o₁) (h₂ : StepOpt env now o₁ o') :
    StepOpt env now o o' := by
  cases o <;> cases o₁ <;> cases o' <;> simp_all [StepOpt]
  exact Step_trans h₁ h₂

theorem StoreStep_trans {env : Env} {now : Int} {s s₁ s' : List Complaint}
    (h₁ : StoreStep env now s s₁) (h₂ : StoreStep env now s₁ s') :
    StoreStep env now s s' := fun id => StepOpt_trans (h₁ id) (h₂ id)

theorem StoreStep_get {env : Env} {now : Int} {s s' : List Complaint}
    {id : String} {c c' : Complaint} (h : StoreStep env now s s')
    (hc : getComplaint s id = some c) (hc' : getComplaint s' id = some c') :
    Step env now c c' := by
  have := h id
  rw [hc, hc'] at this
  exact this

theorem storeStep_updateById {env : Env} {now : Int} {tid : String}
    {f : Complaint → Complaint} {s : List Complaint}
    (hf : ∀ c, (f c).id = c.id)
    (h : ∀ c, getComplaint s tid = some c → Step env now c (f c)) :
    StoreStep env now s (updateById tid f s) := by
  intro id
  by_cases hid : id = tid
  · subst hid
    cases hc : getComplaint s id with
    | none =>
      rw [getComplaint_updateById hf, hc]
      trivial
    | some c =>
      rw [getComplaint_updateById_eq hf hc]
      exact h c hc
  · rw [getComplaint_updateById_ne hf hid]
    exact StepOpt_refl env now _

theorem storeStep_appendTimeline (env : Env) (now : Int) (tid : String)
    (ev : TimelineEvent) (s : List Complaint) :
    StoreStep env now s (appendTimeline tid ev s) :=
  storeStep_updateById (fun _ => rfl)
    (fun c _ => Or.inl ⟨rfl, rfl, rfl, rfl, rfl⟩)

theorem storeStep_appendAudit (env : Env) (now : Int) (tid : String)
    (entry : AuditEntry) (s : List Complaint) :
    StoreStep env now s (appendAudit tid entry s) :=
  storeStep_updateById (fun _ => rfl)
    (fun c _ => Or.inl ⟨rfl, rfl, rfl, rfl, rfl⟩)

theorem commitTransition_step {env : Env} {now : Int} {complaint : Complaint}
    {slaMs : Int} {ns : String} {lv : Int} {msg : String} {st : LoopState}
    (hc : getComplaint st.store complaint.id = some complaint)
    (ht : transition complaint.status = some (ns, lv, msg))
    (hd : getDeadline complaint = some slaMs)
    (hnow : slaMs < now) :
    StoreStep env now st.store
      (commitTransition env now complaint slaMs ns lv msg st).1.store := by
  have hstep1 : StoreStep env now st.store
      (updateById complaint.id
        (fieldPatch ns lv now (now + extensionMs env)) st.store) := by
    refine storeStep_updateById (fun _ => rfl) (fun c hget => ?_)
    rw [hc] at hget
    injection hget with hget
    subst hget
    exact Or.inr ⟨ns, lv, msg, slaMs, ht, hd, hnow, rfl, rfl, rfl, rfl, rfl⟩
  unfold commitTransition
  by_cases h1 : env.updateFails complaint.id
  · simp only [h1, if_true]
    exact StoreStep_refl env now _
  · by_cases h2 : env.timelineFails complaint.id
    · simp only [h1, h2, if_false, if_true]
      exact hstep1
    · by_cases h3 : env.auditFails complaint.id
      · simp only [h1, h2, h3, if_false, if_true]
        exact StoreStep_trans hstep1 (storeStep_appendTimeline env now _ _ _)
      · simp only [h1, h2, h3, if_false]
        exact StoreStep_trans hstep1
          (StoreStep_trans (storeStep_appendTimeline env now _ _ _)
            (storeStep_appendAudit env now _ _ _))

theorem processOverdue_step (env : Env) (now : Int) (rawId : String)
    (st : LoopState) :
    StoreStep env now st.store (processOverdue env now rawId st).1.store := by
  unfold processOverdue
  by_cases hr : env.refetchFails rawId
  · simp only [hr, if_true]
    exact StoreStep_refl env now _
  · simp only [hr, if_false]
    cases hc : getComplaint st.store rawId with
    | none => exact StoreStep_refl env now _
    | some complaint =>
      by_cases hterm : complaint.status = "resolved" ∨
          complaint.status = "escalated"
      · simp only [hterm, if_true]
        exact StoreStep_refl env now _
      · simp only [hterm, if_false]
        cases hd : getDeadline complaint with
        | none => exact StoreStep_refl env now _
        | some slaMs =>
          by_cases hle : now ≤ slaMs
          · simp only [hle, if_true]
            exact StoreStep_refl env now _
          · simp only [hle, if_false]
            cases htr : transition complaint.status with
            | none => exact StoreStep_refl env now _
            | some t =>
              obtain ⟨ns, lv, msg⟩ := t
              have hid := getComplaint_some_id hc
              rw [← hid] at hc
              exact commitTransition_step hc htr hd (by omega)

theorem runLoop_step (env : Env) (now : Int) (ids : List String)
    (st : LoopState) :
    StoreStep env now st.store (runLoop env now ids st).1.store := by
  induction ids generalizing st with
  | nil => exact StoreStep_refl env now _
  | cons rawId rest ih =>
    have h1 := processOverdue_step env now rawId st
    cases hp : processOverdue env now rawId st with
    | mk st' e? =>
      rw [hp] at h1
      cases e? with
      | none =>
        simp only [runLoop, hp]
        exact StoreStep_trans h1 (ih st')
      | some e =>
        simp only [runLoop, hp]
        exact h1

theorem addEscItem_step (env : Env) (now : Int) (esc : EscRecord)
    (s : List Complaint) :
    StoreStep env now s (addEscItem env esc s).1 := by
  unfold addEscItem
  cases hg : env.gemini ⟨esc.department, esc.severity, esc.elapsedSeconds,
      esc.status⟩ with
  | error u =>
    simp only [hg]
    by_cases hf : env.aiCatchAppendFails esc.id
    · simp only [hf, if_true]
      exact StoreStep_refl env now _
    · simp only [hf, if_false]
      exact storeStep_appendTimeline env now _ _ _
  | ok justification =>
    simp only [hg]
    by_cases ha : env.aiAppendFails esc.id
    · by_cases hf : env.aiCatchAppendFails esc.id
      · simp only [ha, hf, if_true]
        exact StoreStep_refl env now _
      · simp only [ha, hf, if_true, if_false]
        exact storeStep_appendTimeline env now _ _ _
    · simp only [ha, if_false]
      exact storeStep_appendTimeline env now _ _ _

theorem addEscalationExplanations_step (env : Env) (now : Int)
    (escs : List EscRecord) (s : List Complaint) :
    StoreStep env now s (addEscalationExplanations env escs s) := by
  induction escs generalizing s with
  | nil => exact StoreStep_refl env now _
  | cons esc rest ih =>
    have h1 := addEscItem_step env now esc s
    cases hp : addEscItem env esc s with
    | mk s' abort =>
      rw [hp] at h1
      cases abort with
      | true =>
        simp only [addEscalationExplanations, hp]
        exact h1
      | false =>
        simp only [addEscalationExplanations, hp]
        exact StoreStep_trans h1 (ih s')

/-- The whole-cycle step lemma: one non-re-entrant `tick()` relates every
document of the store to its successor by `Step`. -/
theorem tick_step (env : Env) (now : Int) (store : List Complaint) :
    StoreStep env now store (tick env now false store).store := by
  unfold tick
  by_cases hq : env.queryFails
  · simp only [hq, if_true, Bool.false_eq_true, if_false]
    exact StoreStep_refl env now _
  · simp only [hq, Bool.false_eq_true, if_false]
    have h1 := runLoop_step env now
      (((queryActive store).filter (isOverdue now)).map fun c => c.id)
      { store := store, updatedIds := [], escalatedForAI := [] }
    cases hl : runLoop env now
        (((queryActive store).filter (isOverdue now)).map fun c => c.id)
        { store := store, updatedIds := [], escalatedForAI := [] } with
    | mk st e? =>
      rw [hl] at h1
      cases e? with
      | none =>
        simp only [hl]
        by_cases he : st.escalatedForAI.isEmpty
        · simp only [he, if_true]
          exact h1
        · simp only [he, if_false]
          exact StoreStep_trans h1
            (addEscalationExplanations_step env now st.escalatedForAI st.store)
      | some e =>
        simp only [hl]
        exact h1

/-! ### Case analysis of the transition table -/

theorem transition_cases {s ns : String} {lv : Int} {msg : String}
    (h : transition s = some (ns, lv, msg)) :
    (ns = "sla_warning" ∧ lv = 1 ∧
      (s = "analyzed" ∨ s = "in_progress" ∨ s = "submitted")) ∨
    (ns = "escalated" ∧ lv = 2 ∧ s = "sla_warning") := by
  unfold transition at h
  split at h
  · rename_i hcond
    simp only [Option.some.injEq, Prod.mk.injEq] at h
    exact Or.inl ⟨h.1.symm, h.2.1.symm, hcond⟩
  · split at h
    · rename_i hcond
      simp only [Option.some.injEq, Prod.mk.injEq] at h
      exact Or.inr ⟨h.1.symm, h.2.1.symm, hcond⟩
    · exact absurd h (by simp)

/-! ### Fixed points: `resolved` and `escalated` documents are untouched -/

theorem getComplaint_appendTimeline_ne {tid : String} {ev : TimelineEvent}
    {s : List Complaint} {id : String} (hne : id ≠ tid) :
    getComplaint (appendTimeline tid ev s) id = getComplaint s id := by
  unfold appendTimeline
  refine getComplaint_updateById_ne ?_ hne
  intro c
  rfl

theorem getComplaint_appendAudit_ne {tid : String} {entry : AuditEntry}
    {s : List Complaint} {id : String} (hne : id ≠ tid) :
    getComplaint (appendAudit tid entry s) id = getComplaint s id := by
  unfold appendAudit
  refine getComplaint_updateById_ne ?_ hne
  intro c
  rfl

/-- A document other than the one being committed is untouched by
`commitTransition`, and every new `escalatedForAI` entry carries the
committed document's id. -/
theorem commitTransition_other {env : Env} {now : Int} {complaint : Complaint}
    {slaMs : Int} {ns : String} {lv : Int} {msg : String} {st : LoopState}
    {id : String} (hne : id ≠ complaint.id) :
    getComplaint
        (commitTransition env now complaint slaMs ns lv msg st).1.store id =
      getComplaint st.store id ∧
    ∀ e ∈ (commitTransition env now complaint slaMs ns lv msg st).1.escalatedForAI,
      e ∈ st.escalatedForAI ∨ e.id = complaint.id := by
  unfold commitTransition
  by_cases h1 : env.updateFails complaint.id = true
  · rw [if_pos h1]
    exact ⟨rfl, fun e he => Or.inl he⟩
  · rw [if_neg h1]
    by_cases h2 : env.timelineFails complaint.id = true
    · rw [if_pos h2]
      refine ⟨?_, fun e he => Or.inl he⟩
      refine getComplaint_updateById_ne ?_ hne
      intro c
      rfl
    · rw [if_neg h2]
      by_cases h3 : env.auditFails complaint.id = true
      · rw [if_pos h3]
        refine ⟨?_, fun e he => Or.inl he⟩
        rw [getComplaint_appendTimeline_ne hne]
        refine getComplaint_updateById_ne ?_ hne
        intro c
        rfl
      · rw [if_neg h3]
        constructor
        · rw [getComplaint_appendAudit_ne hne,
            getComplaint_appendTimeline_ne hne]
          refine getComplaint_updateById_ne ?_ hne
          intro c
          rfl
        · intro e he
          rcases List.mem_append.mp he with h | h
          · exact Or.inl h
          · simp only [List.mem_singleton] at h
            subst h
            exact Or.inr rfl

/-- A `resolved` or `escalated` document is untouched by one loop item, and
its id never enters `escalatedForAI`. -/
theorem processOverdue_terminal {env : Env} {now : Int} {rid : String}
    {st : LoopState} {id : String} {c : Complaint}
    (hc : getComplaint st.store id = some c)
    (hterm : c.status = "resolved" ∨ c.status = "escalated")
    (hai : ∀ e ∈ st.escalatedForAI, e.id ≠ id) :
    getComplaint (processOverdue env now rid st).1.store id = some c ∧
    ∀ e ∈ (processOverdue env now rid st).1.escalatedForAI, e.id ≠ id := by
  unfold processOverdue
  by_cases hr : env.refetchFails rid
  · simp only [hr, if_true]
    exact ⟨hc, hai⟩
  · simp only [hr, if_false]
    cases hcm : getComplaint st.store rid with
    | none => exact ⟨hc, hai⟩
    | some complaint =>
      by_cases ht : complaint.status = "resolved" ∨
          complaint.status = "escalated"
      · simp only [ht, if_true]
        exact ⟨hc, hai⟩
      · simp only [ht, if_false]
        have hne : id ≠ complaint.id := by
          intro heq
          rw [getComplaint_some_id hcm] at heq
          rw [heq] at hc
          rw [hc] at hcm
          injection hcm with hcm
          rw [hcm] at hterm
          exact ht hterm
        cases hd : getDeadline complaint with
        | none => exact ⟨hc, hai⟩
        | some slaMs =>
          by_cases hle : now ≤ slaMs
          · simp only [hle, if_true]
            exact ⟨hc, hai⟩
          · simp only [hle, if_false]
            cases htr : transition complaint.status with
            | none => exact ⟨hc, hai⟩
            | some t =>
              obtain ⟨ns, lv, msg⟩ := t
              obtain ⟨hstore, hesc⟩ :=
                @commitTransition_other env now complaint slaMs ns lv msg
                  st id hne
              refine ⟨?_, ?_⟩
              · show getComplaint
                    (commitTransition env now complaint slaMs ns lv msg
                      st).1.store id = some c
                rw [hstore]
                exact hc
              · show ∀ e ∈ (commitTransition env now complaint slaMs ns lv msg
                    st).1.escalatedForAI, e.id ≠ id
                intro e he
                rcases hesc e he with h | h
                · exact hai e h
                · rw [h]
                  exact fun heq => hne heq.symm

/-- Lemma `processOverdue_terminal` lifted over the whole loop. -/
theorem runLoop_terminal {env : Env} {now : Int} (ids : List String)
    (st : LoopState) {id : String} {c : Complaint}
    (hc : getComplaint st.store id = some c)
    (hterm : c.status = "resolved" ∨ c.status = "escalated")
    (hai : ∀ e ∈ st.escalatedForAI, e.id ≠ id) :
    getComplaint (runLoop env now ids st).1.store id = some c ∧
    ∀ e ∈ (runLoop env now ids st).1.escalatedForAI, e.id ≠ id := by
  induction ids generalizing st with
  | nil => exact ⟨hc, hai⟩
  | cons rawId rest ih =>
    obtain ⟨h1, h2⟩ := @processOverdue_terminal env now rawId st id c
      hc hterm hai
    cases hp : processOverdue env now rawId st with
    | mk st' e? =>
      rw [hp] at h1 h2
      cases e? with
      | none =>
        simp only [runLoop, hp]
        exact ih st' h1 h2
      | some e =>
        simp only [runLoop, hp]
        exact ⟨h1, h2⟩

theorem addEscItem_other {env : Env} {esc : EscRecord} {s : List Complaint}
    {id : String} (hne : esc.id ≠ id) :
    getComplaint (addEscItem env esc s).1 id = getComplaint s id := by
  have hne' : id ≠ esc.id := fun h => hne h.symm
  unfold addEscItem
  cases hg : env.gemini ⟨esc.department, esc.severity, esc.elapsedSeconds,
      esc.status⟩ with
  | error u =>
    simp only [hg]
    by_cases hf : env.aiCatchAppendFails esc.id
    · simp only [hf, if_true]
    · simp only [hf, if_false]
      exact getComplaint_appendTimeline_ne hne'
  | ok justification =>
    simp only [hg]
    by_cases ha : env.aiAppendFails esc.id
    · by_cases hf : env.aiCatchAppendFails esc.id
      · simp only [ha, hf, if_true]
      · simp only [ha, hf, if_true, if_false]
        exact getComplaint_appendTimeline_ne hne'
    · simp only [ha, if_false]
      exact getComplaint_appendTimeline_ne hne'

theorem addEscalationExplanations_other {env : Env} {id : String}
    (escs : List EscRecord) (s : List Complaint)
    (h : ∀ e ∈ escs, e.id ≠ id) :
    getComplaint (addEscalationExplanations env escs s) id =
      getComplaint s id := by
  induction escs generalizing s with
  | nil => rfl
  | cons esc rest ih =>
    have h1 : getComplaint (addEscItem env esc s).1 id = getComplaint s id :=
      addEscItem_other (h esc (List.mem_cons_self esc rest))
    cases hp : addEscItem env esc s with
    | mk s' abort =>
      rw [hp] at h1
      cases abort with
      | true =>
        simp only [addEscalationExplanations, hp]
        exact h1
      | false =>
        simp only [addEscalationExplanations, hp]
        rw [ih s' (fun e he => h e (List.mem_cons_of_mem esc he))]
        exact h1

/-- One non-re-entrant `tick()` leaves a `resolved` or `escalated` document
exactly as it was. -/
theorem tick_terminal {env : Env} {now : Int} {store : List Complaint}
    {id : String} {c : Complaint}
    (hc : getComplaint store id = some c)
    (hterm : c.status = "resolved" ∨ c.status = "escalated") :
    getComplaint (tick env now false store).store id = some c := by
  unfold tick
  by_cases hq : env.queryFails
  · simp only [hq, if_true, Bool.false_eq_true, if_false]
    exact hc
  · simp only [hq, Bool.false_eq_true, if_false]
    obtain ⟨h1, h2⟩ := @runLoop_terminal env now
      (((queryActive store).filter (isOverdue now)).map fun c => c.id)
      { store := store, updatedIds := [], escalatedForAI := [] } id c
      hc hterm (by intro e he; exact absurd he (List.not_mem_nil e))
    cases hl : runLoop env now
        (((queryActive store).filter (isOverdue now)).map fun c => c.id)
        { store := store, updatedIds := [], escalatedForAI := [] } with
    | mk st e? =>
      rw [hl] at h1 h2
      cases e? with
      | none =>
        simp only [hl]
        by_cases he : st.escalatedForAI.isEmpty
        · simp only [he, if_true]
          exact h1
        · simp only [he, Bool.false_eq_true, if_false]
          show getComplaint
              (addEscalationExplanations env st.escalatedForAI st.store) id =
            some c
          rw [addEscalationExplanations_other st.escalatedForAI st.store
            (fun e hmem => h2 e hmem)]
          exact h1
      | some e =>
        simp only [hl]
        exact h1

/-! ### Escalation-level monotonicity lemmas -/

theorem step_level_mono {env : Env} {now : Int} {c c' : Complaint}
    (hinv : levelInvB c = true) (h : Step env now c c') :
    c.escalationLevel ≤ c'.escalationLevel := by
  rcases h with hs | he
  · rw [hs.2.1]
  · obtain ⟨ns, lv, msg, d, e1, _, _, _, e5, _⟩ := he
    unfold levelInvB at hinv
    rw [e1] at hinv
    rw [e5]
    exact of_decide_eq_true hinv

theorem step_levelInv {env : Env} {now : Int} {c c' : Complaint}
    (hinv : levelInvB c = true) (h : Step env now c c') :
    levelInvB c' = true := by
  rcases h with hs | he
  · unfold levelInvB at hinv ⊢
    rw [hs.1, hs.2.1]
    exact hinv
  · obtain ⟨ns, lv, msg, d, e1, _, _, e4, e5, _⟩ := he
    rcases transition_cases e1 with ⟨hns, hlv, _⟩ | ⟨hns, hlv, _⟩
    · unfold levelInvB
      rw [e4, hns]
      have htw : transition "sla_warning" =
          some ("escalated", 2, "SLA escalated to level 2") := by decide
      rw [htw, e5, hlv]
      decide
    · unfold levelInvB
      rw [e4, hns]
      have hte : transition "escalated" = none := by decide
      rw [hte]

theorem StepOpt_some_right {env : Env} {now : Int} {o : Option Complaint}
    {c' : Complaint} (h : StepOpt env now o (some c')) :
    ∃ c, o = some c ∧ Step env now c c' := by
  cases o with
  | none => exact absurd h (by intro hh; exact hh)
  | some c => exact ⟨c, rfl, h⟩

/-! ### `elapsedSeconds` lower bound machinery -/

theorem commitTransition_esc_elapsed {env : Env} {now : Int}
    {complaint : Complaint} {slaMs : Int} {ns : String} {lv : Int}
    {msg : String} {st : LoopState} :
    ∀ e ∈ (commitTransition env now complaint slaMs ns lv msg
      st).1.escalatedForAI, e ∈ st.escalatedForAI ∨ 1 ≤ e.elapsedSeconds := by
  unfold commitTransition
  by_cases h1 : env.updateFails complaint.id = true
  · rw [if_pos h1]
    exact fun e he => Or.inl he
  · rw [if_neg h1]
    by_cases h2 : env.timelineFails complaint.id = true
    · rw [if_pos h2]
      exact fun e he => Or.inl he
    · rw [if_neg h2]
      by_cases h3 : env.auditFails complaint.id = true
      · rw [if_pos h3]
        exact fun e he => Or.inl he
      · rw [if_neg h3]
        intro e he
        rcases List.mem_append.mp he with h | h
        · exact Or.inl h
        · simp only [List.mem_singleton] at h
          subst h
          exact Or.inr (le_max_left 1 _)

theorem processOverdue_esc_elapsed {env : Env} {now : Int} {rawId : String}
    {st : LoopState} :
    ∀ e ∈ (processOverdue env now rawId st).1.escalatedForAI,
      e ∈ st.escalatedForAI ∨ 1 ≤ e.elapsedSeconds := by
  unfold processOverdue
  by_cases hr : env.refetchFails rawId = true
  · rw [if_pos hr]
    exact fun e he => Or.inl he
  · rw [if_neg hr]
    cases hc : getComplaint st.store rawId with
    | none => exact fun e he => Or.inl he
    | some complaint =>
      by_cases ht : complaint.status = "resolved" ∨
          complaint.status = "escalated"
      · simp only [ht, if_true]
        exact fun e he => Or.inl he
      · simp only [ht, if_false]
        cases hd : getDeadline complaint with
        | none => exact fun e he => Or.inl he
        | some slaMs =>
          by_cases hle : now ≤ slaMs
          · simp only [hle, if_true]
            exact fun e he => Or.inl he
          · simp only [hle, if_false]
            cases htr : transition complaint.status with
            | none => exact fun e he => Or.inl he
            | some t =>
              obtain ⟨ns, lv, msg⟩ := t
              exact commitTransition_esc_elapsed

theorem runLoop_esc_elapsed {env : Env} {now : Int} (ids : List String)
    (st : LoopState)
    (h0 : ∀ e ∈ st.escalatedForAI, 1 ≤ e.elapsedSeconds) :
    ∀ e ∈ (runLoop env now ids st).1.escalatedForAI,
      1 ≤ e.elapsedSeconds := by
  induction ids generalizing st with
  | nil => exact h0
  | cons rawId rest ih =>
    have hstep := @processOverdue_esc_elapsed env now rawId st
    cases hp : processOverdue env now rawId st with
    | mk st' e? =>
      rw [hp] at hstep
      have h0' : ∀ e ∈ st'.escalatedForAI, 1 ≤ e.elapsedSeconds := by
        intro e he
        rcases hstep e he with h | h
        · exact h0 e h
        · exact h
      cases e? with
      | none =>
        simp only [runLoop, hp]
        exact ih st' h0'
      | some e =>
        simp only [runLoop, hp]
        exact h0'

/-! ### The claims -/

/-- C1: for every complaint processed by `tick()`, the only transitions the
watchdog ever produces are: current status `submitted`, `analyzed`, or
`in_progress` goes to `sla_warning` with `escalationLevel` 1; current status
`sla_warning` goes to `escalated` with `escalationLevel` 2; every other
current status produces no transition.  No other (status, level) edge is
ever produced by `tick()`. -/
theorem claim_C1_transitions_follow_table
    (env : Env) (now : Int) (store : List Complaint) (id : String)
    (c c' : Complaint)
    (hc : getComplaint store id = some c)
    (hc' : getComplaint (tick env now false store).store id = some c')
    (hchange : c'.status ≠ c.status ∨
      c'.escalationLevel ≠ c.escalationLevel) :
    ((c.status = "submitted" ∨ c.status = "analyzed" ∨
        c.status = "in_progress") ∧
      c'.status = "sla_warning" ∧ c'.escalationLevel = 1) ∨
    (c.status = "sla_warning" ∧ c'.status = "escalated" ∧
      c'.escalationLevel = 2) := by
  rcases StoreStep_get (tick_step env now store) hc hc' with hs | he
  · rcases hchange with h | h
    · exact absurd hs.1 h
    · exact absurd hs.2.1 h
  · obtain ⟨ns, lv, msg, d, e1, _, _, e4, e5, _⟩ := he
    rcases transition_cases e1 with ⟨hns, hlv, hdom⟩ | ⟨hns, hlv, hdom⟩
    · refine Or.inl ⟨?_, by rw [e4, hns], by rw [e5, hlv]⟩
      rcases hdom with h | h | h
      · exact Or.inr (Or.inl h)
      · exact Or.inr (Or.inr h)
      · exact Or.inl h
    · exact Or.inr ⟨hdom, by rw [e4, hns], by rw [e5, hlv]⟩

/-- Witness for C1: an overdue `submitted` complaint actually takes the
(`submitted` → `sla_warning`, level 1) edge. -/
theorem claim_C1_witness :
    ((cw1.status = "submitted" ∨ cw1.status = "analyzed" ∨
        cw1.status = "in_progress") ∧
      cw1'.status = "sla_warning" ∧ cw1'.escalationLevel = 1) ∨
    (cw1.status = "sla_warning" ∧ cw1'.status = "escalated" ∧
      cw1'.escalationLevel = 2) :=
  claim_C1_transitions_follow_table envBase 1000000 [cw1] "w1" cw1 cw1'
    (by decide) (by decide) (by decide)

/-- C2: a complaint whose status is `resolved` or `escalated` is a fixed
point of the watchdog: any number of `tick()` cycles leaves the document —
in particular its `status` and `escalationLevel` — entirely unchanged. -/
theorem claim_C2_terminal_fixed_point
    (runs : List (Env × Int)) (store : List Complaint) (id : String)
    (c : Complaint)
    (hc : getComplaint store id = some c)
    (hterm : c.status = "resolved" ∨ c.status = "escalated") :
    getComplaint (ticks runs store) id = some c := by
  induction runs generalizing store with
  | nil => exact hc
  | cons p rest ih =>
    obtain ⟨env, now⟩ := p
    simp only [ticks]
    exact ih _ (tick_terminal hc hterm)

/-- Witness for C2: an overdue `resolved` complaint survives two cycles
untouched. -/
theorem claim_C2_witness :
    getComplaint (ticks [(envBase, 1000000), (envBase, 2000000)] [cRes])
      "r1" = some cRes :=
  claim_C2_terminal_fixed_point [(envBase, 1000000), (envBase, 2000000)]
    [cRes] "r1" cRes (by decide) (by decide)

/-- Counterexample to C3: with `DEMO_SLA_SECONDS` unset the loop body
defaults it to `'10'`, so a committed transition extends the deadline by 10
seconds, not by the claimed 24 hours. -/
theorem claim_C3_counterexample :
    envNoDemo.demoSlaSeconds = none ∧
    (getComplaint (tick envNoDemo 1000000 false [cw1]).store "w1").map
      (fun c => (c.status, c.slaDeadline)) =
      some ("sla_warning", some 1010000) ∧
    extensionMs envNoDemo = 10 * 1000 ∧
    (1010000 : Int) ≠ 1000000 + 24 * 60 * 60 * 1000 := by
  refine ⟨rfl, by decide, by decide, by decide⟩

/-- C3 as amended: on every watchdog-committed transition both `slaDeadline`
and `expectedResolutionTime` are set to `now + extensionMs`, and
`extensionMs` is the configured seconds (×1000) when the configuration is
set to a positive value, 24 hours when it is set to a non-positive value,
and 10 seconds when it is unset (the code defaults the unset variable to
`'10'`). -/
theorem claim_C3_amended_deadline_extension
    (env : Env) (now : Int) (store : List Complaint) (id : String)
    (c c' : Complaint)
    (hc : getComplaint store id = some c)
    (hc' : getComplaint (tick env now false store).store id = some c')
    (hchange : c'.status ≠ c.status) :
    c'.slaDeadline = some (now + extensionMs env) ∧
    c'.expectedResolutionTime = some (now + extensionMs env) ∧
    c'.updatedAt = now ∧
    (env.demoSlaSeconds = none → extensionMs env = 10 * 1000) ∧
    (∀ s, env.demoSlaSeconds = some s → 0 < s →
      extensionMs env = s * 1000) ∧
    (∀ s, env.demoSlaSeconds = some s → s ≤ 0 →
      extensionMs env = 24 * 60 * 60 * 1000) := by
  rcases StoreStep_get (tick_step env now store) hc hc' with hs | he
  · exact absurd hs.1 hchange
  · obtain ⟨ns, lv, msg, d, e1, e2, e3, e4, e5, e6, e7, e8⟩ := he
    refine ⟨e6, e7, e8, ?_, ?_, ?_⟩
    · intro h
      unfold extensionMs demoSeconds
      rw [h]
      decide
    · intro s h hpos
      unfold extensionMs demoSeconds
      rw [h]
      simp only [Option.getD_some]
      rw [if_pos hpos]
    · intro s h hneg
      unfold extensionMs demoSeconds
      rw [h]
      simp only [Option.getD_some]
      rw [if_neg (by omega)]

/-- Witness for the amended C3: the unset-variable cycle extends by exactly
10 seconds. -/
theorem claim_C3_witness :
    cw1'.slaDeadline = some (1000000 + extensionMs envNoDemo) ∧
    cw1'.expectedResolutionTime = some (1000000 + extensionMs envNoDemo) ∧
    cw1'.updatedAt = 1000000 ∧
    (envNoDemo.demoSlaSeconds = none → extensionMs envNoDemo = 10 * 1000) ∧
    (∀ s, envNoDemo.demoSlaSeconds = some s → 0 < s →
      extensionMs envNoDemo = s * 1000) ∧
    (∀ s, envNoDemo.demoSlaSeconds = some s → s ≤ 0 →
      extensionMs envNoDemo = 24 * 60 * 60 * 1000) :=
  claim_C3_amended_deadline_extension envNoDemo 1000000 [cw1] "w1" cw1 cw1'
    (by decide) (by decide) (by decide)

/-- Counterexample to C4: `A` and `B` are both overdue and `A` is processed
first; when `A`'s field update throws, the cycle ends with the error and `B`
is left completely unprocessed — although the same cycle without the failure
does transition `B`.  There is no per-item error isolation in `tick()`. -/
theorem claim_C4_counterexample :
    (tick envFailA 1000000 false [cA, cB]).result =
      Except.error "update failed" ∧
    getComplaint (tick envFailA 1000000 false [cA, cB]).store "B" =
      some cB ∧
    (getComplaint (tick envBase 1000000 false [cA, cB]).store "B").map
      (fun c => c.status) = some "sla_warning" :=
  ⟨rfl, by decide, by decide⟩

/-- C4 as amended: an error raised while processing one overdue complaint
aborts the processing of all remaining overdue complaints in the same cycle
(the loop stops at the first thrown call and `tick()` rethrows it, with the
partially-mutated store left as is); only the detached advisory enrichment
is error-isolated. -/
theorem claim_C4_amended_error_aborts_cycle :
    (∀ (env : Env) (now : Int) (rawId : String) (rest : List String)
      (st st' : LoopState) (e : String),
      processOverdue env now rawId st = (st', some e) →
      runLoop env now (rawId :: rest) st = (st', some e)) ∧
    (∀ (env : Env) (now : Int) (store : List Complaint) (st' : LoopState)
      (e : String),
      env.queryFails = false →
      runLoop env now
        (((queryActive store).filter (isOverdue now)).map fun c => c.id)
        { store := store, updatedIds := [], escalatedForAI := [] } =
        (st', some e) →
      tick env now false store =
        { result := Except.error e, store := st'.store, running := false }) := by
  constructor
  · intro env now rawId rest st st' e h
    simp only [runLoop, h]
  · intro env now store st' e hq hl
    unfold tick
    simp only [hq, Bool.false_eq_true, if_false, hl]

/-- Witness for the amended C4: with `A`'s update throwing, the loop over
`[A, B]` stops at `A` with the store unchanged and `B` unprocessed. -/
theorem claim_C4_witness :
    runLoop envFailA 1000000 ["A", "B"]
      { store := [cA, cB], updatedIds := [], escalatedForAI := [] } =
      ({ store := [cA, cB], updatedIds := [], escalatedForAI := [] },
        some "update failed") :=
  claim_C4_amended_error_aborts_cycle.1 envFailA 1000000 "A" ["B"]
    { store := [cA, cB], updatedIds := [], escalatedForAI := [] }
    { store := [cA, cB], updatedIds := [], escalatedForAI := [] }
    "update failed" (by decide)

/-- C5: a complaint is treated as overdue iff `now` is strictly past its
effective deadline (`slaDeadline` when present, else
`expectedResolutionTime`); and the overdue condition is re-validated on the
re-fetched record immediately before committing, so a complaint whose
re-fetched deadline is not strictly in the past is skipped without any
mutation. -/
theorem claim_C5_overdue_iff_and_recheck :
    (∀ (now : Int) (c : Complaint),
      isOverdue now c = true ↔ ∃ d, getDeadline c = some d ∧ d < now) ∧
    (∀ (env : Env) (now : Int) (rawId : String) (st : LoopState)
      (c : Complaint) (d : Int),
      env.refetchFails rawId = false →
      getComplaint st.store rawId = some c →
      getDeadline c = some d → now ≤ d →
      processOverdue env now rawId st = (st, none)) := by
  constructor
  · intro now c
    unfold isOverdue
    cases h : getDeadline c with
    | none => simp
    | some d =>
      constructor
      · intro hh
        exact ⟨d, rfl, of_decide_eq_true hh⟩
      · rintro ⟨d', hd', hlt⟩
        injection hd' with hd'
        subst hd'
        exact decide_eq_true hlt
  · intro env now rawId st c d hr hc hd hle
    unfold processOverdue
    simp only [hr, Bool.false_eq_true, if_false, hc]
    by_cases ht : c.status = "resolved" ∨ c.status = "escalated"
    · simp only [ht, if_true]
    · simp only [ht, if_false, hd, hle, if_true]

/-- Witness for C5: the overdue criterion at a concrete instant, and a
pre-deadline re-check that skips without mutation. -/
theorem claim_C5_witness :
    (isOverdue 1000000 cw1 = true ↔
      ∃ d, getDeadline cw1 = some d ∧ d < 1000000) ∧
    processOverdue envBase 500 "w1"
      { store := [cw1], updatedIds := [], escalatedForAI := [] } =
      ({ store := [cw1], updatedIds := [], escalatedForAI := [] }, none) :=
  ⟨claim_C5_overdue_iff_and_recheck.1 1000000 cw1,
    claim_C5_overdue_iff_and_recheck.2 envBase 500 "w1"
      { store := [cw1], updatedIds := [], escalatedForAI := [] } cw1 900000
      (by decide) (by decide) (by decide) (by decide)⟩

/-- C6: a `tick()` that finds the re-entrancy flag set returns
`{scanned: 0, escalated: 0, updatedIds: []}` and leaves the store untouched
(the guard returns before any store call); and a `tick()` that takes the
flag releases it on every exit path — normal return and thrown error alike
(the `finally` block). -/
theorem claim_C6_reentrancy_guard (env : Env) (now : Int)
    (store : List Complaint) :
    tick env now true store =
      { result := Except.ok { scanned := 0, escalated := 0, updatedIds := [] },
        store := store, running := true } ∧
    (tick env now false store).running = false := by
  refine ⟨rfl, ?_⟩
  unfold tick
  by_cases hq : env.queryFails
  · simp [hq]
  · simp only [hq, Bool.false_eq_true, if_false]
    cases hl : runLoop env now
        (((queryActive store).filter (isOverdue now)).map fun c => c.id)
        { store := store, updatedIds := [], escalatedForAI := [] } with
    | mk st e? =>
      cases e? with
      | none => simp only [hl]
      | some e => simp only [hl]

/-- Counterexample to C7: when the advisory call returns an *empty* result,
the deterministic fallback message is appended under the action
`ai_escalation_justification` — the very same action a successful
AI-enriched entry carries — so this failure mode is not distinguishable by
action, contrary to the claim. -/
theorem claim_C7_counterexample :
    (getComplaint (addEscalationExplanations envEmptyRes [escW] [cEsc1])
        "e1").map (fun c => c.timeline.map fun ev => (ev.action, ev.message)) =
      some [("ai_escalation_justification",
        "System escalation enforced due to SLA breach.")] ∧
    (getComplaint (addEscalationExplanations envBase [escW] [cEsc1])
        "e1").map (fun c => c.timeline.map fun ev => ev.action) =
      some ["ai_escalation_justification"] := by
  refine ⟨by decide, by decide⟩

/-- C7 as amended: for every item, a *thrown* advisory call appends exactly
one timeline event with the fixed fallback message and the distinct action
`ai_escalation_justification_failed`; an *empty* advisory result appends
exactly one event with a fixed deterministic fallback message but under the
same action (`ai_escalation_justification`) as successful AI-enriched
entries. -/
theorem claim_C7_amended_fallback (env : Env) (esc : EscRecord)
    (store : List Complaint)
    (hcat : env.aiCatchAppendFails esc.id = false)
    (htry : env.aiAppendFails esc.id = false) :
    (env.gemini ⟨esc.department, esc.severity, esc.elapsedSeconds,
        esc.status⟩ = Except.error () →
      addEscItem env esc store =
        (appendTimeline esc.id
          { type := "system", action := "ai_escalation_justification_failed",
            message :=
              "System escalation enforced due to SLA breach. AI justification unavailable.",
            timestamp := env.advNow } store, false)) ∧
    (env.gemini ⟨esc.department, esc.severity, esc.elapsedSeconds,
        esc.status⟩ = Except.ok none →
      addEscItem env esc store =
        (appendTimeline esc.id
          { type := "system", action := "ai_escalation_justification",
            message := "System escalation enforced due to SLA breach.",
            timestamp := env.advNow } store, false)) := by
  constructor
  · intro hg
    unfold addEscItem
    simp only [hg, hcat, Bool.false_eq_true, if_false]
  · intro hg
    unfold addEscItem
    simp only [hg, hcat, htry, Bool.false_eq_true, if_false]

/-- Witness for the amended C7: a thrown advisory call yields exactly the
distinct fallback timeline append. -/
theorem claim_C7_witness :
    addEscItem envErr escW [cEsc1] =
      (appendTimeline "e1"
        { type := "system", action := "ai_escalation_justification_failed",
          message :=
            "System escalation enforced due to SLA breach. AI justification unavailable.",
          timestamp := 1000100 } [cEsc1], false) :=
  (claim_C7_amended_fallback envErr escW [cEsc1] rfl rfl).1 rfl

/-- C8: `escalationLevel` is non-decreasing across any sequence of `tick()`
cycles.  The hypothesis is the status/level correlation the system
maintains (intake starts complaints at level 0 and the watchdog is the only
level writer): a document whose status still admits a transition carries a
level no larger than that transition writes; the proof shows this invariant
is itself preserved by every cycle. -/
theorem claim_C8_level_monotone (runs : List (Env × Int)) :
    ∀ store : List Complaint,
      (∀ id c, getComplaint store id = some c → levelInvB c = true) →
      ∀ (id : String) (c c' : Complaint),
        getComplaint store id = some c →
        getComplaint (ticks runs store) id = some c' →
        c.escalationLevel ≤ c'.escalationLevel := by
  induction runs with
  | nil =>
    intro store hinv id c c' hc hc'
    simp only [ticks] at hc'
    rw [hc] at hc'
    injection hc' with h
    subst h
    exact le_refl _
  | cons p rest ih =>
    obtain ⟨env, now⟩ := p
    intro store hinv id c c' hc hc'
    simp only [ticks] at hc'
    have hso := tick_step env now store id
    rw [hc] at hso
    cases hmid : getComplaint (tick env now false store).store id with
    | none =>
      rw [hmid] at hso
      exact hso.elim
    | some c₁ =>
      rw [hmid] at hso
      have hinv' : ∀ id₂ c₂,
          getComplaint (tick env now false store).store id₂ = some c₂ →
          levelInvB c₂ = true := by
        intro id₂ c₂ h₂
        have hso₂ := tick_step env now store id₂
        rw [h₂] at hso₂
        obtain ⟨c₀, hc₀, hstep₀⟩ := StepOpt_some_right hso₂
        exact step_levelInv (hinv id₂ c₀ hc₀) hstep₀
      exact le_trans (step_level_mono (hinv id c hc) hso)
        (ih (tick env now false store).store hinv' id c₁ c' hmid hc')

/-- Witness for C8: `cw1` goes from level 0 to level 1 — non-decreasing. -/
theorem claim_C8_witness :
    cw1.escalationLevel ≤ cw1'.escalationLevel :=
  claim_C8_level_monotone [(envBase, 1000000)] [cw1]
    (by
      intro id c h
      unfold getComplaint at h
      have hm := List.mem_of_find?_eq_some h
      rw [List.mem_singleton] at hm
      subst hm
      decide)
    "w1" cw1 cw1' (by decide) (by decide)

/-- Counterexample to C9: an overdue complaint with status `escalated` —
a status that is terminal for watchdog purposes (`transition` never fires on
it, and it is a watchdog fixed point) — *is* fetched by the bulk query,
because `ACTIVE_STATUSES` contains `escalated`; only `resolved` is excluded.
This refutes "no complaint in a status that is terminal for watchdog
purposes is fetched by the query". -/
theorem claim_C9_counterexample :
    cEsc1 ∈ queryActive [cEsc1] ∧ cEsc1.status = "escalated" ∧
    transition cEsc1.status = none ∧ isOverdue 1000000 cEsc1 = true := by
  decide

/-- C9 as amended: the bulk query selects only complaints whose status is in
`ACTIVE_STATUSES` — every status except the lifecycle-terminal `resolved`,
including the watchdog-terminal `escalated` — ordered by `updatedAt`
descending and limited to a page of 250. -/
theorem claim_C9_amended_query (store : List Complaint) :
    (∀ c ∈ queryActive store,
      c.status ∈ ACTIVE_STATUSES ∧ c.status ≠ "resolved") ∧
    (queryActive store).length ≤ 250 ∧
    (queryActive store).Pairwise byUpdatedDesc := by
  refine ⟨?_, ?_, ?_⟩
  · intro c hc
    have h1 : c ∈ (store.filter
        fun c => c.status ∈ ACTIVE_STATUSES).insertionSort byUpdatedDesc :=
      List.mem_of_mem_take hc
    have h2 : c ∈ store.filter fun c => c.status ∈ ACTIVE_STATUSES :=
      (List.perm_insertionSort byUpdatedDesc _).mem_iff.mp h1
    have h4 : c.status ∈ ACTIVE_STATUSES :=
      of_decide_eq_true (List.mem_filter.mp h2).2
    refine ⟨h4, ?_⟩
    intro hres
    rw [hres] at h4
    revert h4
    decide
  · unfold queryActive
    exact List.length_take_le 250 _
  · unfold queryActive
    exact List.Pairwise.sublist (List.take_sublist 250 _)
      (List.sorted_insertionSort byUpdatedDesc _)

/-- Witness for the amended C9: a fetched complaint is in the active set and
not `resolved`. -/
theorem claim_C9_witness :
    cw1.status ∈ ACTIVE_STATUSES ∧ cw1.status ≠ "resolved" :=
  (claim_C9_amended_query [cw1]).1 cw1 (by decide)

/-- C10: every record a cycle hands to the advisory enricher carries
`elapsedSeconds ≥ 1`, because the value is clamped with
`Math.max(1, ...)` — even when `createdAt` is at or after the cycle's
`now`. -/
theorem claim_C10_elapsed_at_least_one (env : Env) (now : Int)
    (store : List Complaint) (e : EscRecord)
    (he : e ∈ tickEscalations env now store) : 1 ≤ e.elapsedSeconds := by
  unfold tickEscalations at he
  refine runLoop_esc_elapsed _ _ ?_ e he
  intro x hx
  exact absurd hx (List.not_mem_nil x)

/-- Witness for C10: the record produced for `cw1` has
`elapsedSeconds = 1000 ≥ 1`. -/
theorem claim_C10_witness : 1 ≤ escw1.elapsedSeconds :=
  claim_C10_elapsed_at_least_one envBase 1000000 [cw1] escw1 (by decide)

end CivicSentinel
